import Mathlib

/-!
# Shallow embedding of the Shiftswap backend scheduling core

This file translates the scheduling-relevant parts of the Shiftswap backend
(JavaScript/Express/Mongoose) into Lean definitions and proves properties of
the spec against them.

Modelling conventions:
* Mongo ObjectIds are modelled as `Nat`.
* Calendar dates are modelled as integer day numbers with day `0` being
  1970-01-01 (a Thursday), matching JavaScript `Date` day-of-week arithmetic.
* `HH:MM` clock strings are kept as `String`s and parsed exactly as the
  source's `timeStr.split(':').map(Number)` does; a string that is not two
  numeric fields parses to `0` minutes (the JS code would produce `NaN`
  there, which is outside every claim's domain of valid `HH:MM` pairs).
* JavaScript floating-point hour values are modelled as `ℚ` (every quantity
  the code produces here is an exact multiple of `1/60`).
* The database is modelled as an explicit `SysState` record of entity lists;
  `Model.create`/`doc.save()` are list append / keyed replacement, and each
  controller returns the HTTP outcome together with the post-state.
* Each `await ...save()/create()` is a write that can fail at runtime; a
  failure oracle `Nat → Bool` (indexed by the order writes are executed)
  says which write throws.  The thrown error propagates to the Express
  error handler (`next(error)`, a 500 response) leaving all earlier writes
  committed, exactly as in the source, which uses no transactions.
-/

namespace ShiftSwap

/-! ## Time parsing and interval overlap
    Source: `src/services/shiftOverlapValidationService.js` and
    `src/services/overtimeCalculationService.js`. -/

/-- Model of JavaScript `String.prototype.split` with a one-character
separator, on the character list of the string. -/
def splitOnChar (sep : Char) : List Char → List (List Char)
  | [] => [[]]
  | c :: cs =>
    let rest := splitOnChar sep cs
    if c = sep then [] :: rest
    else
      match rest with
      | [] => [[c]]
      | r :: rs => (c :: r) :: rs

/-- Model of JavaScript `Number(...)` on a field of a time string: a
non-empty all-digit field parses to its value, anything else is rejected
(JS would yield `NaN`). -/
def parseDigits (cs : List Char) : Option Nat :=
  if cs.isEmpty then none
  else
    cs.foldl
      (fun acc c =>
        match acc with
        | none => none
        | some n => if c.isDigit then some (n * 10 + (c.toNat - 48)) else none)
      (some 0)

/-- `timeToMinutes` from `shiftOverlapValidationService.js` (the same
conversion is inlined in `calculateHours` in
`overtimeCalculationService.js`): `hours * 60 + minutes`. -/
def timeToMinutes (t : String) : Nat :=
  match (splitOnChar ':' t.toList).map parseDigits with
  | [some hours, some minutes] => hours * 60 + minutes
  | _ => 0

/-- The overnight normalization of `timeRangesOverlap`: an end time
numerically less than the start time gets 24 hours added. -/
def adjustEnd (startMin endMin : Nat) : Nat :=
  if endMin < startMin then endMin + 24 * 60 else endMin

/-- `timeRangesOverlap` from `src/services/shiftOverlapValidationService.js`
(lines 25-45): strict inequalities on minute values, each end adjusted by
24h when it wraps past midnight. -/
def timeRangesOverlap (start1 end1 start2 end2 : String) : Bool :=
  let start1Min := timeToMinutes start1
  let end1Min := timeToMinutes end1
  let start2Min := timeToMinutes start2
  let end2Min := timeToMinutes end2
  let end1Adjusted := adjustEnd start1Min end1Min
  let end2Adjusted := adjustEnd start2Min end2Min
  decide (start1Min < end2Adjusted) && decide (start2Min < end1Adjusted)

/-- `calculateHours` from `src/services/overtimeCalculationService.js`
(lines 10-24): minute difference, +24h when negative, divided by 60. -/
def calculateHours (startTime endTime : String) : ℚ :=
  let startMinutes : Int := timeToMinutes startTime
  let endMinutes : Int := timeToMinutes endTime
  let diffMinutes := endMinutes - startMinutes
  let diffMinutes := if diffMinutes < 0 then diffMinutes + 24 * 60 else diffMinutes
  (diffMinutes : ℚ) / 60

/-! ## Calendar (JavaScript `Date` day arithmetic)
    Day `0` is 1970-01-01, a Thursday, so `getDay` (0 = Sunday) is
    `(d + 4) mod 7`. -/

/-- JavaScript `Date.prototype.getDay`: day of week, 0 = Sunday. -/
def getDay (d : Int) : Int := (d + 4) % 7

/-- `getWeekStart` from `src/services/overtimeCalculationService.js`
(lines 31-36): `d.setDate(d.getDate() - d.getDay())`, i.e. move back to the
most recent day-of-week-0 day. -/
def getWeekStart (d : Int) : Int := d - getDay d

/-! ## Data model
    Source: `src/models/Shift.js` (via its uses), `ShiftSwapRequest`
    (`src/unnamed/part_009`), `WorkHours` (`src/unnamed/part_008`),
    `ShiftHistory`, `Notification`, and the `credentials` subdocument array
    of `src/models/User.js`.  Fields that no claim touches and that carry
    no scheduling logic (license numbers, titles of notifications, month
    and year on `WorkHours` — used only by `getMonthlyHours`, which no
    claim mentions) are omitted. -/

inductive ShiftStatus
  | open_
  | requested
  | approved
deriving DecidableEq

structure Shift where
  id : Nat
  title : String
  department : String
  date : Int
  startTime : String
  endTime : String
  postedBy : Nat
  status : ShiftStatus
  assignedTo : Option Nat
  requiredCredentials : List Nat
  isEmergency : Bool
  incentiveAmount : ℚ
deriving DecidableEq

inductive RequestStatus
  | pending
  | approved
  | rejected
deriving DecidableEq

structure SwapRequest where
  id : Nat
  shift : Nat
  requestedBy : Nat
  status : RequestStatus
  manager : Option Nat
  swapType : String
  reason : String
  responseDeadline : Int
deriving DecidableEq

structure WorkHoursEntry where
  user : Nat
  shift : Nat
  date : Int
  hoursWorked : ℚ
  weekStartDate : Int
deriving DecidableEq

structure HistoryRecord where
  shift : Nat
  action : String
  performedBy : Nat
  description : String
deriving DecidableEq

structure NotificationRec where
  user : Nat
  type : String
  relatedShift : Nat
deriving DecidableEq

/-- One element of a user's `credentials` array (`src/models/User.js`). -/
structure UserCredEntry where
  credential : Nat
  isActive : Bool
  expirationDate : Option Int
deriving DecidableEq

structure UserRec where
  id : Nat
  credentials : List UserCredEntry
deriving DecidableEq

/-- The shared datastore the controllers read and write, together with the
clock value `new Date()` reads during the operation. -/
structure SysState where
  shifts : List Shift
  requests : List SwapRequest
  workHours : List WorkHoursEntry
  history : List HistoryRecord
  notifications : List NotificationRec
  users : List UserRec
  now : Int
deriving DecidableEq

/-- `Model.findById`. -/
def findShift (shifts : List Shift) (shiftId : Nat) : Option Shift :=
  shifts.find? (fun s => s.id == shiftId)

def findRequest (requests : List SwapRequest) (requestId : Nat) : Option SwapRequest :=
  requests.find? (fun r => r.id == requestId)

def findUser (users : List UserRec) (userId : Nat) : Option UserRec :=
  users.find? (fun u => u.id == userId)

/-- `doc.save()` on a fetched document: replace the row with that id. -/
def saveShift (shifts : List Shift) (s : Shift) : List Shift :=
  shifts.map (fun x => if x.id = s.id then s else x)

def saveRequest (requests : List SwapRequest) (r : SwapRequest) : List SwapRequest :=
  requests.map (fun x => if x.id = r.id then r else x)

/-! ## Credential verification service
    Source: `src/services/credentialVerificationService.js`. -/

structure CredCheck where
  isValid : Bool
  missingCredentials : List Nat
  expiredCredentials : List Nat
deriving DecidableEq

/-- The `for (const requiredId of requiredCredentialIds)` loop of
`verifyUserCredentials` (lines 52-72): each required id is pushed onto the
missing list when the user has no active record for it, onto the expired
list when the first active record for it has an expiration date strictly
before `now`.  (The source pushes an object with the credential name onto
the expired list; only the id is kept here.) -/
def verifyLoop (user : UserRec) (now : Int) : List Nat → List Nat × List Nat
  | [] => ([], [])
  | requiredId :: rest =>
    let acc := verifyLoop user now rest
    match user.credentials.find? (fun c => c.credential == requiredId && c.isActive) with
    | none => (requiredId :: acc.1, acc.2)
    | some userCred =>
      match userCred.expirationDate with
      | some e => if e < now then (acc.1, requiredId :: acc.2) else acc
      | none => acc

/-- `verifyUserCredentials` (lines 24-83): trivially valid on an empty
requirement set; everything missing for an unknown user; otherwise the
classification loop, valid iff both lists stay empty. -/
def verifyUserCredentials (users : List UserRec) (userId : Nat)
    (requiredCredentialIds : List Nat) (now : Int) : CredCheck :=
  if requiredCredentialIds.isEmpty then
    { isValid := true, missingCredentials := [], expiredCredentials := [] }
  else
    match findUser users userId with
    | none =>
      { isValid := false, missingCredentials := requiredCredentialIds
        expiredCredentials := [] }
    | some user =>
      let acc := verifyLoop user now requiredCredentialIds
      { isValid := acc.1.isEmpty && acc.2.isEmpty
        missingCredentials := acc.1, expiredCredentials := acc.2 }

/-- `filterShiftsByCredentials` (lines 95-137): an unknown user gets no
shifts; otherwise collect the ids of active, unexpired credential entries
and keep every shift whose requirement set is empty or entirely contained
in that id set. -/
def filterShiftsByCredentials (users : List UserRec) (shifts : List Shift)
    (userId : Nat) (now : Int) : List Shift :=
  match findUser users userId with
  | none => []
  | some user =>
    let userActiveCredentialIds :=
      (user.credentials.filter
        (fun c => c.isActive &&
          match c.expirationDate with
          | none => true
          | some e => decide (now ≤ e))).map (fun c => c.credential)
    shifts.filter
      (fun shift =>
        shift.requiredCredentials.isEmpty ||
        shift.requiredCredentials.all (fun i => userActiveCredentialIds.contains i))

/-! ## Shift overlap validation service
    Source: `src/services/shiftOverlapValidationService.js`. -/

/-- The `status: { $in: ['open', 'requested', 'approved'] }` filter. -/
def activeStatuses : List ShiftStatus := [.open_, .requested, .approved]

/-- `checkUserShiftOverlap` (lines 57-88): shifts assigned to the same user
on the same date in an active status (minus the excluded shift), filtered
down to those whose time range overlaps; returns the overlapping shifts. -/
def checkUserShiftOverlap (shifts : List Shift) (userId : Nat) (date : Int)
    (startTime endTime : String) (excludeShiftId : Option Nat) : List Shift :=
  let existingShifts := shifts.filter
    (fun s =>
      s.assignedTo == some userId && s.date == date &&
      activeStatuses.contains s.status &&
      match excludeShiftId with
      | none => true
      | some ex => s.id != ex)
  existingShifts.filter (fun s => timeRangesOverlap startTime endTime s.startTime s.endTime)

/-- `checkDepartmentShiftOverlap` (lines 101-133): same shape keyed on the
department instead of the assigned user. -/
def checkDepartmentShiftOverlap (shifts : List Shift) (department : String) (date : Int)
    (startTime endTime : String) (excludeShiftId : Option Nat) : List Shift :=
  let existingShifts := shifts.filter
    (fun s =>
      s.department == department && s.date == date &&
      activeStatuses.contains s.status &&
      match excludeShiftId with
      | none => true
      | some ex => s.id != ex)
  existingShifts.filter (fun s => timeRangesOverlap startTime endTime s.startTime s.endTime)

/-- Result of `validateShiftOverlap`; each error or warning carries the ids
of the overlapping shifts it reports. -/
structure OverlapValidation where
  isValid : Bool
  errors : List (List Nat)
  warnings : List (List Nat)
deriving DecidableEq

/-- `validateShiftOverlap` (lines 142-188): a hard `user_overlap` error when
the shift is assigned and collides with the same user's active shifts, a
soft `department_overlap` warning for department collisions, valid iff no
errors. -/
def validateShiftOverlap (shifts : List Shift) (assignedTo : Option Nat)
    (department : String) (date : Int) (startTime endTime : String)
    (excludeShiftId : Option Nat) : OverlapValidation :=
  let errors :=
    match assignedTo with
    | none => []
    | some userId =>
      let userOverlap := checkUserShiftOverlap shifts userId date startTime endTime excludeShiftId
      if userOverlap.isEmpty then [] else [userOverlap.map (fun s => s.id)]
  let deptOverlap := checkDepartmentShiftOverlap shifts department date startTime endTime excludeShiftId
  let warnings := if deptOverlap.isEmpty then [] else [deptOverlap.map (fun s => s.id)]
  { isValid := errors.isEmpty, errors := errors, warnings := warnings }

/-! ## Hours ledger
    Source: `src/services/overtimeCalculationService.js`.  `checkOvertime`
    is an advisory read that only decorates responses and notification
    text; no claim depends on its value, so it is not modelled. -/

/-- `recordWorkHours` (lines 89-107): the ledger entry created at approval
time (the caller appends it to the store). -/
def recordWorkHours (userId shiftId : Nat) (date : Int)
    (startTime endTime : String) : WorkHoursEntry :=
  { user := userId, shift := shiftId, date := date
    hoursWorked := calculateHours startTime endTime
    weekStartDate := getWeekStart date }

/-- `getWeeklyHours` (lines 44-55): sum the hours of this user's entries
whose date lies in `[weekStart, weekStart + 7)`. -/
def getWeeklyHours (entries : List WorkHoursEntry) (userId : Nat) (date : Int) : ℚ :=
  let weekStart := getWeekStart date
  let weekEnd := weekStart + 7
  ((entries.filter
      (fun wh =>
        wh.user == userId && decide (weekStart ≤ wh.date) && decide (wh.date < weekEnd))).map
    (fun wh => wh.hoursWorked)).sum

/-! ## Controllers
    Source: `src/controllers/shiftController.js`,
    `src/controllers/swapRequestController.js`,
    `src/controllers/managerController.js`.
    Each controller returns the HTTP outcome (`res.status(...).json` or the
    Express error handler's 500) paired with the datastore afterwards.
    Payload decoration that no claim observes (populated sub-documents,
    overtime warnings on success responses, notification message text) is
    not modelled. -/

/-- The HTTP outcome of a controller call. -/
inductive ApiResult
  | ok
  | err (status : Nat) (msg : String)
deriving DecidableEq

/-- A failure oracle: `oracle k = true` means the `k`-th database write the
operation executes throws.  `noFail` is the normal run. -/
def noFail : Nat → Bool := fun _ => false

structure CreateShiftBody where
  title : String
  department : String
  date : Int
  startTime : String
  endTime : String
  requiredCredentials : List Nat
  isEmergency : Bool
  incentiveAmount : ℚ
  assignedTo : Option Nat
deriving DecidableEq

/-- `createShift` (`shiftController.js` lines 26-121): when the body carries
`assignedTo`, run the overlap validator and refuse on a hard error; then
create the shift — `approved` if pre-assigned, `open` otherwise — and append
a `created` history record.  No credential check is performed anywhere in
this path. -/
def createShift (st : SysState) (actorId : Nat) (body : CreateShiftBody) :
    ApiResult × SysState :=
  let gate :=
    match body.assignedTo with
    | none => none
    | some w =>
      let overlapCheck := validateShiftOverlap st.shifts (some w) body.department
        body.date body.startTime body.endTime none
      if overlapCheck.isValid then none
      else some (ApiResult.err 400 "Shift overlap validation failed")
  match gate with
  | some e => (e, st)
  | none =>
    let newShift : Shift :=
      { id := st.shifts.length, title := body.title, department := body.department
        date := body.date, startTime := body.startTime, endTime := body.endTime
        postedBy := actorId
        status := if body.assignedTo.isSome then .approved else .open_
        assignedTo := body.assignedTo
        requiredCredentials := body.requiredCredentials
        isEmergency := body.isEmergency, incentiveAmount := body.incentiveAmount }
    let st := { st with shifts := st.shifts ++ [newShift] }
    let st := { st with history := st.history ++
      [{ shift := newShift.id, action := "created", performedBy := actorId
         description := "Shift created" }] }
    (ApiResult.ok, st)

/-- The update request body: `none` is an absent (`undefined`) field.  For
`assignedTo` the inner option distinguishes an explicit `null` (unassign)
from an id, as the source's `!== undefined` / truthiness checks do. -/
structure UpdateShiftBody where
  title : Option String
  department : Option String
  date : Option Int
  startTime : Option String
  endTime : Option String
  requiredCredentials : Option (List Nat)
  isEmergency : Option Bool
  incentiveAmount : Option ℚ
  assignedTo : Option (Option Nat)
  status : Option ShiftStatus
deriving DecidableEq

/-- A body with every field absent, for writing concrete updates tersely. -/
def emptyUpdate : UpdateShiftBody :=
  { title := none, department := none, date := none, startTime := none
    endTime := none, requiredCredentials := none, isEmergency := none
    incentiveAmount := none, assignedTo := none, status := none }

/-- `updateShift` (`shiftController.js` lines 376-501): 404 on a missing
shift, 403 unless manager or owner; re-run the overlap validator only when
date/time or the assignee changed; then apply every provided field —
including `status` and `assignedTo`, independently of each other — and
append an `updated` history record. -/
def updateShift (st : SysState) (actorId : Nat) (actorRole : String)
    (shiftId : Nat) (body : UpdateShiftBody) : ApiResult × SysState :=
  match findShift st.shifts shiftId with
  | none => (ApiResult.err 404 "Shift not found", st)
  | some shift =>
    if actorRole ≠ "manager" ∧ shift.postedBy ≠ actorId then
      (ApiResult.err 403 "Access denied. Only managers or shift owners can update shifts.", st)
    else
      let timeChanged : Bool :=
        (match body.date with | some d => d != shift.date | none => false) ||
        (match body.startTime with | some s => s != shift.startTime | none => false) ||
        (match body.endTime with | some e => e != shift.endTime | none => false)
      let assignedChanged : Bool :=
        match body.assignedTo with
        | some (some a) => some a != shift.assignedTo
        | _ => false
      let gate :=
        if timeChanged || assignedChanged then
          let overlapCheck := validateShiftOverlap st.shifts
            (match body.assignedTo with
             | some (some a) => some a
             | _ => shift.assignedTo)
            (body.department.getD shift.department)
            (body.date.getD shift.date)
            (body.startTime.getD shift.startTime)
            (body.endTime.getD shift.endTime)
            (some shiftId)
          if overlapCheck.isValid then none
          else some (ApiResult.err 400 "Shift overlap validation failed")
        else none
      match gate with
      | some e => (e, st)
      | none =>
        let shift1 : Shift :=
          { shift with
            title := body.title.getD shift.title
            department := body.department.getD shift.department
            date := body.date.getD shift.date
            startTime := body.startTime.getD shift.startTime
            endTime := body.endTime.getD shift.endTime
            requiredCredentials := body.requiredCredentials.getD shift.requiredCredentials
            isEmergency := body.isEmergency.getD shift.isEmergency
            incentiveAmount := body.incentiveAmount.getD shift.incentiveAmount
            assignedTo :=
              match body.assignedTo with
              | some v => v
              | none => shift.assignedTo
            status := body.status.getD shift.status }
        let st1 := { st with shifts := saveShift st.shifts shift1 }
        let st2 := { st1 with history := st1.history ++
          [{ shift := shift.id, action := "updated", performedBy := actorId
             description := "Shift updated" }] }
        (ApiResult.ok, st2)

structure SwapRequestBody where
  shiftId : Nat
  swapType : String
  reason : String
  responseDeadline : Int
deriving DecidableEq

/-- `createSwapRequest` (`swapRequestController.js` lines 39-180): gates in
source order — shift exists, shift `open`, not the poster's own shift,
credential check, then the duplicate lookup, which matches ANY existing
request for the (shift, user) pair regardless of its status.  On success:
write 0 creates the `pending` request, write 1 flips the shift to
`requested`.  (The overtime check between the gates is a read that only
decorates the response.) -/
def createSwapRequest (st : SysState) (oracle : Nat → Bool) (userId : Nat)
    (body : SwapRequestBody) : ApiResult × SysState :=
  match findShift st.shifts body.shiftId with
  | none => (ApiResult.err 404 "Shift not found", st)
  | some shift =>
    if shift.status ≠ .open_ then
      (ApiResult.err 400 "Shift is not available for swap requests", st)
    else if shift.postedBy = userId then
      (ApiResult.err 400 "Cannot request your own shift", st)
    else
      let credentialCheck := verifyUserCredentials st.users userId shift.requiredCredentials st.now
      if credentialCheck.isValid = false then
        (ApiResult.err 403 "You do not have the required credentials for this shift", st)
      else
        match st.requests.find? (fun r => r.shift == body.shiftId && r.requestedBy == userId) with
        | some _ => (ApiResult.err 400 "You have already requested this shift", st)
        | none =>
          if oracle 0 then (ApiResult.err 500 "Internal server error", st)
          else
            let newReq : SwapRequest :=
              { id := st.requests.length, shift := body.shiftId, requestedBy := userId
                status := .pending, manager := none, swapType := body.swapType
                reason := body.reason, responseDeadline := body.responseDeadline }
            let st1 := { st with requests := st.requests ++ [newReq] }
            if oracle 1 then (ApiResult.err 500 "Internal server error", st1)
            else
              let st2 := { st1 with shifts := saveShift st1.shifts { shift with status := .requested } }
              (ApiResult.ok, st2)

/-- `approveRequest` (`managerController.js` lines 103-194): 404 on a
missing request, 400 unless `pending`; then, in source order: write 0 marks
the request `approved` and records the manager; the advisory overtime read
dereferences the populated shift (a missing shift therefore throws AFTER
write 0, reaching the error handler with the request already approved);
write 1 assigns the shift to the requester and sets it `approved`; write 2
appends the hours-ledger entry; write 3 the `approved` history record;
write 4 the approval notification.  No overlap validation is performed
anywhere in this path. -/
def approveRequest (st : SysState) (oracle : Nat → Bool) (managerId : Nat)
    (requestId : Nat) : ApiResult × SysState :=
  match findRequest st.requests requestId with
  | none => (ApiResult.err 404 "Swap request not found", st)
  | some swapRequest =>
    if swapRequest.status ≠ .pending then
      (ApiResult.err 400 "Request is not pending", st)
    else if oracle 0 then (ApiResult.err 500 "Internal server error", st)
    else
      let req1 := { swapRequest with status := .approved, manager := some managerId }
      let st1 := { st with requests := saveRequest st.requests req1 }
      match findShift st1.shifts swapRequest.shift with
      | none => (ApiResult.err 500 "Internal server error", st1)
      | some shift =>
        if oracle 1 then (ApiResult.err 500 "Internal server error", st1)
        else
          let shift1 := { shift with assignedTo := some swapRequest.requestedBy, status := .approved }
          let st2 := { st1 with shifts := saveShift st1.shifts shift1 }
          if oracle 2 then (ApiResult.err 500 "Internal server error", st2)
          else
            let entry := recordWorkHours swapRequest.requestedBy shift1.id shift1.date
              shift1.startTime shift1.endTime
            let st3 := { st2 with workHours := st2.workHours ++ [entry] }
            if oracle 3 then (ApiResult.err 500 "Internal server error", st3)
            else
              let st4 := { st3 with history := st3.history ++
                [{ shift := shift1.id, action := "approved", performedBy := managerId
                   description := "Shift swap request approved by manager" }] }
              if oracle 4 then (ApiResult.err 500 "Internal server error", st4)
              else
                let st5 := { st4 with notifications := st4.notifications ++
                  [{ user := swapRequest.requestedBy, type := "approval"
                     relatedShift := shift1.id }] }
                (ApiResult.ok, st5)

/-- `rejectRequest` (`managerController.js` lines 197-261): 404 / non-pending
400 gates, then write 0 marks the request `rejected` with the manager,
write 1 sets the shift back to `open` (leaving `assignedTo` untouched),
write 2 the `rejected` history record, write 3 the rejection
notification. -/
def rejectRequest (st : SysState) (oracle : Nat → Bool) (managerId : Nat)
    (requestId : Nat) : ApiResult × SysState :=
  match findRequest st.requests requestId with
  | none => (ApiResult.err 404 "Swap request not found", st)
  | some swapRequest =>
    if swapRequest.status ≠ .pending then
      (ApiResult.err 400 "Request is not pending", st)
    else if oracle 0 then (ApiResult.err 500 "Internal server error", st)
    else
      let req1 := { swapRequest with status := .rejected, manager := some managerId }
      let st1 := { st with requests := saveRequest st.requests req1 }
      match findShift st1.shifts swapRequest.shift with
      | none => (ApiResult.err 500 "Internal server error", st1)
      | some shift =>
        if oracle 1 then (ApiResult.err 500 "Internal server error", st1)
        else
          let shift1 := { shift with status := .open_ }
          let st2 := { st1 with shifts := saveShift st1.shifts shift1 }
          if oracle 2 then (ApiResult.err 500 "Internal server error", st2)
          else
            let st3 := { st2 with history := st2.history ++
              [{ shift := shift.id, action := "rejected", performedBy := managerId
                 description := "Shift swap request rejected by manager" }] }
            if oracle 3 then (ApiResult.err 500 "Internal server error", st3)
            else
              let st4 := { st3 with notifications := st3.notifications ++
                [{ user := swapRequest.requestedBy, type := "rejection"
                   relatedShift := shift.id }] }
              (ApiResult.ok, st4)

/-! ## Theorems -/

/-- C5: for every pair of time ranges, `timeRangesOverlap` returns true iff
`start1 < end2_adjusted ∧ start2 < end1_adjusted`, each end adjusted by
adding 24 hours (1440 minutes) when numerically less than its start; the
inequalities are strict, so the back-to-back pair 09:00-17:00 / 17:00-21:00
does not overlap; and the function is symmetric in its two ranges. -/
theorem timeRangesOverlap_formula_and_symm :
    (∀ start1 end1 start2 end2 : String,
      timeRangesOverlap start1 end1 start2 end2 = true ↔
        (timeToMinutes start1 < adjustEnd (timeToMinutes start2) (timeToMinutes end2) ∧
         timeToMinutes start2 < adjustEnd (timeToMinutes start1) (timeToMinutes end1))) ∧
    timeRangesOverlap "09:00" "17:00" "17:00" "21:00" = false ∧
    (∀ start1 end1 start2 end2 : String,
      timeRangesOverlap start1 end1 start2 end2 = timeRangesOverlap start2 end2 start1 end1) := by
  refine ⟨fun s1 e1 s2 e2 => ?_, by decide, fun s1 e1 s2 e2 => ?_⟩
  · simp [timeRangesOverlap]
  · simp [timeRangesOverlap, Bool.and_comm]

/-- C4 counterexample: against the claimed value, the code evaluates the
overnight interval 22:00-06:00 against 02:00-05:00 to NO overlap (the
formula compares 22:00's 1320 minutes against the unadjusted 05:00 end). -/
theorem timeRangesOverlap_overnight_cex :
    timeRangesOverlap "22:00" "06:00" "02:00" "05:00" ≠ true := by decide

/-- C4 amended: for the overnight-wrapping interval 22:00-06:00, the
time-range overlap function returns FALSE against the interval 02:00-05:00
and false against the interval 07:00-09:00. -/
theorem timeRangesOverlap_overnight_examples :
    timeRangesOverlap "22:00" "06:00" "02:00" "05:00" = false ∧
    timeRangesOverlap "22:00" "06:00" "07:00" "09:00" = false := by decide

/-- C9: for valid `HH:MM` times (parsed minutes below 1440), `calculateHours`
is the minute difference with 1440 added for overnight wraps, divided by 60,
and is non-negative; in particular 09:00-17:00 gives 8 hours and the
overnight 20:00-08:00 gives 12. -/
theorem calculateHours_spec (s e : String)
    (hs : timeToMinutes s < 24 * 60) (he : timeToMinutes e < 24 * 60) :
    calculateHours s e =
      (((timeToMinutes e : Int) - (timeToMinutes s : Int) +
        (if (timeToMinutes e : Int) < (timeToMinutes s : Int) then (1440 : Int) else 0) : Int) : ℚ) / 60 ∧
    0 ≤ calculateHours s e ∧
    calculateHours "09:00" "17:00" = 8 ∧
    calculateHours "20:00" "08:00" = 12 := by
  have h0900 : timeToMinutes "09:00" = 540 := by decide
  have h1700 : timeToMinutes "17:00" = 1020 := by decide
  have h2000 : timeToMinutes "20:00" = 1200 := by decide
  have h0800 : timeToMinutes "08:00" = 480 := by decide
  refine ⟨?_, ?_, ?_, ?_⟩
  · simp only [calculateHours]
    by_cases hc : ((timeToMinutes e : Int)) < ((timeToMinutes s : Int))
    · rw [if_pos (show ((timeToMinutes e : Int) - (timeToMinutes s : Int)) < 0 by omega),
        if_pos hc]
      push_cast
      norm_num
    · rw [if_neg (show ¬ ((timeToMinutes e : Int) - (timeToMinutes s : Int)) < 0 by omega),
        if_neg hc]
      push_cast
      norm_num
  · unfold calculateHours
    have hnn : (0 : Int) ≤
        (if ((timeToMinutes e : Int) - (timeToMinutes s : Int)) < 0 then
          (timeToMinutes e : Int) - (timeToMinutes s : Int) + 24 * 60
          else (timeToMinutes e : Int) - (timeToMinutes s : Int)) := by
      split_ifs <;> omega
    have : (0 : ℚ) ≤
        ((if ((timeToMinutes e : Int) - (timeToMinutes s : Int)) < 0 then
          (timeToMinutes e : Int) - (timeToMinutes s : Int) + 24 * 60
          else (timeToMinutes e : Int) - (timeToMinutes s : Int) : Int) : ℚ) := by
      exact_mod_cast hnn
    exact div_nonneg this (by norm_num)
  · unfold calculateHours
    rw [h0900, h1700]
    norm_num
  · unfold calculateHours
    rw [h2000, h0800]
    norm_num

/-- C9 witness: the theorem instantiated at the 09:00-17:00 shift. -/
theorem calculateHours_spec_witness :
    calculateHours "09:00" "17:00" = 8 :=
  (calculateHours_spec "09:00" "17:00" (by decide) (by decide)).2.2.1

/-- The `[weekStart, weekStart + 7)` date window used by `getWeeklyHours`
contains exactly the dates sharing that week start. -/
theorem weekStart_window_iff (x y : Int) :
    (getWeekStart y ≤ x ∧ x < getWeekStart y + 7) ↔ getWeekStart x = getWeekStart y := by
  unfold getWeekStart getDay
  omega

/-- C6 counterexample: for day 5 (1970-01-06, a Tuesday) the ledger entry
stores week-start day 3 (1970-01-04), whose day-of-week is 0 (Sunday), not
the Monday-aligned week start, which would be day 4 (day-of-week 1). -/
theorem recordWorkHours_weekStart_cex :
    (recordWorkHours 1 2 5 "09:00" "17:00").weekStartDate = 3 ∧
    getDay 3 = 0 ∧
    (getDay 4 = 1 ∧ 4 ≤ 5 ∧ 5 < 4 + 7) ∧
    (3 : Int) ≠ 4 := by decide

/-- C6 amended: every ledger entry created by `recordWorkHours` stores as
its week-start field the SUNDAY-aligned week start of the shift's date (the
most recent day-of-week-0 day, per §4.4), and `getWeeklyHours` buckets
entries by that same week start: its date window keeps exactly the entries
of the given user whose week start equals the query date's week start. -/
theorem recordWorkHours_weekStart_sunday (userId shiftId : Nat) (date : Int)
    (startTime endTime : String) :
    ((recordWorkHours userId shiftId date startTime endTime).weekStartDate = getWeekStart date ∧
     getDay (getWeekStart date) = 0 ∧
     getWeekStart date ≤ date ∧ date < getWeekStart date + 7) ∧
    (∀ (entries : List WorkHoursEntry) (d : Int),
      getWeeklyHours entries userId d =
        ((entries.filter (fun wh =>
            wh.user == userId && decide (getWeekStart wh.date = getWeekStart d))).map
          (fun wh => wh.hoursWorked)).sum) := by
  constructor
  · refine ⟨rfl, ?_, ?_, ?_⟩ <;> (unfold getWeekStart getDay; omega)
  · intro entries d
    have key : ∀ x y : Int,
        (decide (getWeekStart y ≤ x) && decide (x < getWeekStart y + 7)) =
          decide (getWeekStart x = getWeekStart y) := by
      intro x y
      rw [← Bool.decide_and, decide_eq_decide]
      exact weekStart_window_iff x y
    have hfilter : entries.filter
        (fun wh => wh.user == userId &&
          decide (getWeekStart d ≤ wh.date) && decide (wh.date < getWeekStart d + 7)) =
        entries.filter
          (fun wh => wh.user == userId && decide (getWeekStart wh.date = getWeekStart d)) := by
      apply List.filter_congr
      intro wh _
      rw [Bool.and_assoc, key wh.date d]
    simp only [getWeeklyHours]
    rw [hfilter]

/-! Concrete scenario for the duplicate-request claim: a shift that is
`open` again after an earlier request by worker 5 was rejected. -/

def c7Shift : Shift :=
  { id := 0, title := "Night shift", department := "Nursing", date := 0
    startTime := "09:00", endTime := "17:00", postedBy := 3, status := .open_
    assignedTo := none, requiredCredentials := [], isEmergency := false
    incentiveAmount := 0 }

def c7Rejected : SwapRequest :=
  { id := 0, shift := 0, requestedBy := 5, status := .rejected, manager := some 9
    swapType := "coverage", reason := "earlier attempt", responseDeadline := 10 }

def c7State : SysState :=
  { shifts := [c7Shift], requests := [c7Rejected], workHours := [], history := []
    notifications := [], users := [⟨5, []⟩], now := 0 }

def c7Body : SwapRequestBody :=
  { shiftId := 0, swapType := "coverage", reason := "try again", responseDeadline := 20 }

/-- C7 counterexample: no pending request exists (the only one is
rejected), the shift is `open` again, yet worker 5's new request fails as a
duplicate, because the lookup ignores request status. -/
theorem createSwapRequest_duplicate_cex :
    (∀ r ∈ c7State.requests, r.status ≠ .pending) ∧
    (createSwapRequest c7State noFail 5 c7Body).1 =
      ApiResult.err 400 "You have already requested this shift" := by decide

/-- C7 amended: once the earlier gates pass (shift exists and is `open`,
requester is not the poster, credentials valid), filing fails with the
duplicate error exactly when ANY request — of any status, including
`rejected` — already exists for the same (shift, worker) pair; a worker
whose earlier request was rejected therefore cannot re-file. -/
theorem createSwapRequest_duplicate_iff (st : SysState) (userId : Nat)
    (body : SwapRequestBody) (shift : Shift)
    (hfind : findShift st.shifts body.shiftId = some shift)
    (hopen : shift.status = .open_)
    (hself : shift.postedBy ≠ userId)
    (hcred : (verifyUserCredentials st.users userId shift.requiredCredentials st.now).isValid = true) :
    ((createSwapRequest st noFail userId body).1 =
        ApiResult.err 400 "You have already requested this shift" ↔
      ∃ r ∈ st.requests, r.shift = body.shiftId ∧ r.requestedBy = userId) := by
  rcases hfq : st.requests.find? (fun r => r.shift == body.shiftId && r.requestedBy == userId)
    with _ | r
  · simp only [createSwapRequest, hfind, hopen, hcred, hfq, noFail]
    simp only [reduceCtorEq]
    constructor
    · intro h
      simp [hself] at h
    · rintro ⟨r, hr, hsh, hrb⟩
      have := List.find?_eq_none.mp hfq r hr
      simp [hsh, hrb] at this
  · simp only [createSwapRequest, hfind, hopen, hcred, hfq, noFail]
    have hmem := List.mem_of_find?_eq_some hfq
    have hpred := List.find?_some hfq
    simp only [Bool.and_eq_true, beq_iff_eq] at hpred
    constructor
    · intro _
      exact ⟨r, hmem, hpred.1, hpred.2⟩
    · intro _
      simp [hself]

/-- C7 witness: the amended theorem instantiated at the rejected-request
scenario; both sides of the equivalence hold there. -/
theorem createSwapRequest_duplicate_iff_witness :
    ((createSwapRequest c7State noFail 5 c7Body).1 =
        ApiResult.err 400 "You have already requested this shift" ↔
      ∃ r ∈ c7State.requests, r.shift = c7Body.shiftId ∧ r.requestedBy = 5) :=
  createSwapRequest_duplicate_iff c7State 5 c7Body c7Shift (by decide) (by decide)
    (by decide) (by decide)

/-- The classification loop of `verifyUserCredentials` reports no missing
and no expired credential iff every required id has a first active entry
and that entry is unexpired. -/
theorem verifyLoop_nil_iff (user : UserRec) (now : Int) (R : List Nat) :
    ((verifyLoop user now R).1 = [] ∧ (verifyLoop user now R).2 = []) ↔
      ∀ i ∈ R, ∃ c,
        user.credentials.find? (fun c => c.credential == i && c.isActive) = some c ∧
        ∀ e, c.expirationDate = some e → now ≤ e := by
  induction R with
  | nil => simp [verifyLoop]
  | cons i rest ih =>
    simp only [verifyLoop]
    rcases hf : user.credentials.find? (fun c => c.credential == i && c.isActive) with _ | c
    · simp only [hf]
      constructor
      · rintro ⟨h1, _⟩
        simp at h1
      · intro h
        obtain ⟨c, hc, _⟩ := h i (by simp)
        rw [hf] at hc
        simp at hc
    · rcases hexp : c.expirationDate with _ | e
      · simp only [hf, hexp]
        constructor
        · rintro ⟨h1, h2⟩ j hj
          rcases List.mem_cons.mp hj with rfl | hj'
          · exact ⟨c, hf, by intro e2 he2; rw [hexp] at he2; cases he2⟩
          · exact (ih.mp ⟨h1, h2⟩) j hj'
        · intro h
          exact ih.mpr (fun j hj => h j (List.mem_cons_of_mem _ hj))
      · simp only [hf, hexp]
        by_cases hlt : e < now
        · rw [if_pos hlt]
          constructor
          · rintro ⟨_, h2⟩
            simp at h2
          · intro h
            obtain ⟨c2, hc2, hu⟩ := h i (by simp)
            rw [hf] at hc2
            injection hc2 with hcc
            subst hcc
            have := hu e hexp
            omega
        · rw [if_neg hlt]
          constructor
          · rintro ⟨h1, h2⟩ j hj
            rcases List.mem_cons.mp hj with rfl | hj'
            · refine ⟨c, hf, ?_⟩
              intro e2 he2
              rw [hexp] at he2
              injection he2 with he3
              omega
            · exact (ih.mp ⟨h1, h2⟩) j hj'
          · intro h
            exact ih.mpr (fun j hj => h j (List.mem_cons_of_mem _ hj))

/-- Under per-credential uniqueness of the active entries, the single-check
path's per-id test (first active entry unexpired) coincides with the bulk
path's id set (some active unexpired entry). -/
theorem usable_iff_contains (user : UserRec) (now : Int) (i : Nat)
    (hnodup : ((user.credentials.filter (fun c => c.isActive)).map
        (fun c => c.credential)).Nodup) :
    (∃ c, user.credentials.find? (fun c => c.credential == i && c.isActive) = some c ∧
        ∀ e, c.expirationDate = some e → now ≤ e) ↔
      ((user.credentials.filter
          (fun c => c.isActive &&
            match c.expirationDate with
            | none => true
            | some e => decide (now ≤ e))).map (fun c => c.credential)).contains i := by
  rw [List.elem_iff, List.mem_map]
  constructor
  · rintro ⟨c, hf, hu⟩
    have hmem := List.mem_of_find?_eq_some hf
    have hp := List.find?_some hf
    simp only [Bool.and_eq_true, beq_iff_eq] at hp
    refine ⟨c, ?_, hp.1⟩
    rw [List.mem_filter, Bool.and_eq_true]
    refine ⟨hmem, hp.2, ?_⟩
    rcases hexp : c.expirationDate with _ | e
    · rfl
    · simpa using hu e hexp
  · rintro ⟨c, hcf, hcred⟩
    rw [List.mem_filter, Bool.and_eq_true] at hcf
    obtain ⟨hmem, hact, hune⟩ := hcf
    have hsat : (fun c : UserCredEntry => c.credential == i && c.isActive) c = true := by
      simp [hcred, hact]
    rcases hf : user.credentials.find? (fun c => c.credential == i && c.isActive) with _ | c2
    · exact absurd (List.find?_eq_none.mp hf c hmem) (by simp [hsat])
    · have hmem2 := List.mem_of_find?_eq_some hf
      have hp2 := List.find?_some hf
      simp only [Bool.and_eq_true, beq_iff_eq] at hp2
      have hc2filter : c2 ∈ user.credentials.filter (fun c => c.isActive) := by
        rw [List.mem_filter]
        exact ⟨hmem2, hp2.2⟩
      have hcfilter : c ∈ user.credentials.filter (fun c => c.isActive) := by
        rw [List.mem_filter]
        exact ⟨hmem, hact⟩
      have hceq : c = c2 :=
        List.inj_on_of_nodup_map hnodup hcfilter hc2filter (by rw [hcred, hp2.1])
      subst hceq
      refine ⟨c, hf, ?_⟩
      intro e he
      rw [he] at hune
      simpa using hune

def c8User : UserRec :=
  { id := 7, credentials :=
      [{ credential := 1, isActive := true, expirationDate := some 10 },
       { credential := 1, isActive := true, expirationDate := some 100 }] }

def c8Shift : Shift :=
  { id := 0, title := "ICU day", department := "ICU", date := 0
    startTime := "09:00", endTime := "17:00", postedBy := 3, status := .open_
    assignedTo := none, requiredCredentials := [1], isEmergency := false
    incentiveAmount := 0 }

/-- C8 counterexample: at evaluation time 50, worker 7 holds two active
records for credential 1 — the first expired (date 10), the second current
(date 100).  `verifyUserCredentials` consults only the FIRST active record
and reports invalid, while `filterShiftsByCredentials` accepts ANY active
unexpired record and retains the shift, so the two paths disagree. -/
theorem credential_paths_disagree_cex :
    (verifyUserCredentials [c8User] 7 c8Shift.requiredCredentials 50).isValid = false ∧
    filterShiftsByCredentials [c8User] [c8Shift] 7 50 = [c8Shift] := by decide

/-- C8 amended: for every worker whose ACTIVE credential entries carry no
duplicate credential id (which the credential-add endpoint maintains), and
every shift, evaluated at the same instant, the bulk path retains the shift
iff the single-check path reports valid — both treat a credential as usable
iff it is active and its expiration date, if any, is on or after evaluation
time.  With duplicate active entries for one credential the two paths can
disagree (see the counterexample). -/
theorem filterShifts_agrees_with_verify (user : UserRec) (shifts : List Shift)
    (s : Shift) (now : Int)
    (hnodup : ((user.credentials.filter (fun c => c.isActive)).map
        (fun c => c.credential)).Nodup)
    (hmem : s ∈ shifts) :
    (s ∈ filterShiftsByCredentials [user] shifts user.id now ↔
      (verifyUserCredentials [user] user.id s.requiredCredentials now).isValid = true) := by
  have huser : findUser [user] user.id = some user := by
    simp [findUser, List.find?]
  simp only [filterShiftsByCredentials, verifyUserCredentials, huser]
  rw [List.mem_filter]
  simp only [hmem, true_and]
  by_cases hE : s.requiredCredentials.isEmpty = true
  · simp [hE]
  · rw [if_neg hE]
    simp only [hE, Bool.false_or]
    rw [Bool.and_eq_true, List.isEmpty_iff, List.isEmpty_iff, List.all_eq_true,
      verifyLoop_nil_iff]
    constructor
    · intro h i hi
      exact (usable_iff_contains user now i hnodup).mpr (h i hi)
    · intro h i hi
      exact (usable_iff_contains user now i hnodup).mp (h i hi)

def c8GoodUser : UserRec :=
  { id := 7, credentials :=
      [{ credential := 1, isActive := true, expirationDate := some 100 }] }

/-- C8 witness: the amended equivalence instantiated at a worker with a
single active, current record for the one required credential. -/
theorem filterShifts_agrees_with_verify_witness :
    (c8Shift ∈ filterShiftsByCredentials [c8GoodUser] [c8Shift] c8GoodUser.id 50 ↔
      (verifyUserCredentials [c8GoodUser] c8GoodUser.id
        c8Shift.requiredCredentials 50).isValid = true) :=
  filterShifts_agrees_with_verify c8GoodUser [c8Shift] c8Shift 50 (by decide) (by decide)

/-! Concrete scenario for direct assignment without a credential check:
shift 0 requires credential 1; the worker being assigned has no usable
record for it (hypothesis), and the credential registry `users` is left
fully general. -/

def c10Shift : Shift :=
  { id := 0, title := "Lab call", department := "Laboratory", date := 0
    startTime := "09:00", endTime := "17:00", postedBy := 3, status := .open_
    assignedTo := none, requiredCredentials := [1], isEmergency := false
    incentiveAmount := 0 }

def c10State (users : List UserRec) : SysState :=
  { shifts := [c10Shift], requests := [], workHours := [], history := []
    notifications := [], users := users, now := 0 }

def c10CreateBody (w : Nat) : CreateShiftBody :=
  { title := "Lab extra", department := "Radiology", date := 7
    startTime := "09:00", endTime := "17:00", requiredCredentials := [1]
    isEmergency := false, incentiveAmount := 0, assignedTo := some w }

/-- The shift `createShift` produces for `c10CreateBody w`. -/
def c10Created (w : Nat) : Shift :=
  { id := 1, title := "Lab extra", department := "Radiology", date := 7
    startTime := "09:00", endTime := "17:00", postedBy := 9, status := .approved
    assignedTo := some w, requiredCredentials := [1], isEmergency := false
    incentiveAmount := 0 }

def c10Update (w : Nat) : UpdateShiftBody :=
  { emptyUpdate with assignedTo := some (some w) }

/-- C10: whatever the credential registry contains — in particular when the
worker `w` is NOT eligible for the required credential set of the shift —
creating a shift pre-assigned to `w` succeeds and commits it directly in
status `approved`, and editing the existing shift's `assignedTo` to `w`
succeeds as well: neither path consults the credential checker (only the
swap-request path does). -/
theorem direct_assignment_skips_credential_check (users : List UserRec) (w : Nat)
    (_hw : (verifyUserCredentials users w c10Shift.requiredCredentials 0).isValid = false) :
    ((createShift (c10State users) 9 (c10CreateBody w)).1 = ApiResult.ok ∧
     (createShift (c10State users) 9 (c10CreateBody w)).2.shifts =
       [c10Shift, c10Created w] ∧
     (c10Created w).status = .approved ∧ (c10Created w).assignedTo = some w) ∧
    ((updateShift (c10State users) 9 "manager" 0 (c10Update w)).1 = ApiResult.ok ∧
     findShift (updateShift (c10State users) 9 "manager" 0 (c10Update w)).2.shifts 0 =
       some { c10Shift with assignedTo := some w }) :=
  ⟨⟨rfl, rfl, rfl, rfl⟩, rfl, rfl⟩

/-- C10 witness: with an empty credential registry worker 5 is ineligible,
and both direct-assignment paths still succeed. -/
theorem direct_assignment_skips_credential_check_witness :
    (verifyUserCredentials [] 5 c10Shift.requiredCredentials 0).isValid = false ∧
    (updateShift (c10State []) 9 "manager" 0 (c10Update 5)).1 = ApiResult.ok :=
  ⟨by decide, (direct_assignment_skips_credential_check [] 5 (by decide)).2.1⟩

/-! The per-shift entity invariant of §3. -/

/-- `assigned-worker ≠ null ⇒ status = approved` and
`status = open ⇒ assigned-worker = null`. -/
def shiftInvariant (s : Shift) : Prop :=
  (s.assignedTo ≠ none → s.status = .approved) ∧
  (s.status = .open_ → s.assignedTo = none)

instance (s : Shift) : Decidable (shiftInvariant s) := by
  unfold shiftInvariant
  infer_instance

def c2Shift : Shift :=
  { id := 0, title := "ER night", department := "ER", date := 0
    startTime := "22:00", endTime := "06:00", postedBy := 3, status := .approved
    assignedTo := some 5, requiredCredentials := [], isEmergency := false
    incentiveAmount := 0 }

def c2State : SysState :=
  { shifts := [c2Shift], requests := [], workHours := [], history := []
    notifications := [], users := [], now := 0 }

/-- C2 counterexample: the approved shift assigned to worker 5 satisfies
the invariant; a manager's direct edit that only sets `status := open`
succeeds without touching `assignedTo` and leaves an `open` shift that is
still assigned — both implications of the invariant are violated. -/
theorem updateShift_breaks_invariant_cex :
    shiftInvariant c2Shift ∧
    (updateShift c2State 9 "manager" 0 { emptyUpdate with status := some .open_ }).1 =
      ApiResult.ok ∧
    findShift (updateShift c2State 9 "manager" 0
        { emptyUpdate with status := some .open_ }).2.shifts 0 =
      some { c2Shift with status := .open_ } ∧
    ¬ shiftInvariant { c2Shift with status := .open_ } := by decide

/-- Replacing a shift by id only touches the row with that id. -/
theorem mem_saveShift (l : List Shift) (s1 : Shift) :
    ∀ s ∈ saveShift l s1, s ∈ l ∨ s = s1 := by
  intro s hs
  rcases List.mem_map.mp hs with ⟨x, hx, hmap⟩
  by_cases hid : x.id = s1.id
  · rw [if_pos hid] at hmap
    exact Or.inr hmap.symm
  · rw [if_neg hid] at hmap
    exact Or.inl (hmap ▸ hx)

/-- The shift list after `createShift`: unchanged, or the new shift
appended with status tied to pre-assignment. -/
theorem createShift_shifts_cases (st : SysState) (actorId : Nat) (body : CreateShiftBody) :
    (createShift st actorId body).2.shifts = st.shifts ∨
    ∃ ns, (createShift st actorId body).2.shifts = st.shifts ++ [ns] ∧
      ns.status = (if body.assignedTo.isSome then ShiftStatus.approved else ShiftStatus.open_) ∧
      ns.assignedTo = body.assignedTo := by
  unfold createShift
  rcases hba : body.assignedTo with _ | w
  · simp only [hba]
    exact Or.inr ⟨_, rfl, rfl, rfl⟩
  · simp only [hba]
    by_cases hv : (validateShiftOverlap st.shifts (some w) body.department body.date
        body.startTime body.endTime none).isValid = true
    · rw [if_pos hv]
      exact Or.inr ⟨_, rfl, rfl, rfl⟩
    · rw [if_neg hv]
      exact Or.inl rfl

/-- The shift list after `approveRequest`: unchanged, or the committed
shift — assigned to the requester and `approved` — saved in place. -/
theorem approveRequest_shifts_cases (st : SysState) (oracle : Nat → Bool)
    (managerId requestId : Nat) :
    (approveRequest st oracle managerId requestId).2.shifts = st.shifts ∨
    ∃ (req : SwapRequest) (s1 : Shift), findRequest st.requests requestId = some req ∧
      (approveRequest st oracle managerId requestId).2.shifts =
        saveShift st.shifts { s1 with assignedTo := some req.requestedBy
                                      status := ShiftStatus.approved } := by
  unfold approveRequest
  rcases hfr : findRequest st.requests requestId with _ | req
  · simp only [hfr]
    exact Or.inl trivial
  · simp only [hfr]
    by_cases hp : req.status ≠ RequestStatus.pending
    · rw [if_pos hp]
      exact Or.inl rfl
    · rw [if_neg hp]
      by_cases h0 : oracle 0 = true
      · rw [if_pos h0]
        exact Or.inl rfl
      · rw [if_neg h0]
        rcases hfs : findShift st.shifts req.shift with _ | s1
        · simp only [hfs]
          exact Or.inl trivial
        · simp only [hfs]
          by_cases h1 : oracle 1 = true
          · rw [if_pos h1]
            exact Or.inl rfl
          · rw [if_neg h1]
            by_cases h2 : oracle 2 = true
            · rw [if_pos h2]
              exact Or.inr ⟨req, s1, rfl, rfl⟩
            · rw [if_neg h2]
              by_cases h3 : oracle 3 = true
              · rw [if_pos h3]
                exact Or.inr ⟨req, s1, rfl, rfl⟩
              · rw [if_neg h3]
                by_cases h4 : oracle 4 = true
                · rw [if_pos h4]
                  exact Or.inr ⟨req, s1, rfl, rfl⟩
                · rw [if_neg h4]
                  exact Or.inr ⟨req, s1, rfl, rfl⟩

/-- The shift list after `rejectRequest`: unchanged, or the reopened shift
(status back to `open`, `assignedTo` untouched) saved in place. -/
theorem rejectRequest_shifts_cases (st : SysState) (oracle : Nat → Bool)
    (managerId requestId : Nat) :
    (rejectRequest st oracle managerId requestId).2.shifts = st.shifts ∨
    ∃ (req : SwapRequest) (s1 : Shift), findRequest st.requests requestId = some req ∧
      findShift st.shifts req.shift = some s1 ∧
      (rejectRequest st oracle managerId requestId).2.shifts =
        saveShift st.shifts { s1 with status := ShiftStatus.open_ } := by
  unfold rejectRequest
  rcases hfr : findRequest st.requests requestId with _ | req
  · simp only [hfr]
    exact Or.inl trivial
  · simp only [hfr]
    by_cases hp : req.status ≠ RequestStatus.pending
    · rw [if_pos hp]
      exact Or.inl rfl
    · rw [if_neg hp]
      by_cases h0 : oracle 0 = true
      · rw [if_pos h0]
        exact Or.inl rfl
      · rw [if_neg h0]
        rcases hfs : findShift st.shifts req.shift with _ | s1
        · simp only [hfs]
          exact Or.inl trivial
        · simp only [hfs]
          by_cases h1 : oracle 1 = true
          · rw [if_pos h1]
            exact Or.inl rfl
          · rw [if_neg h1]
            by_cases h2 : oracle 2 = true
            · rw [if_pos h2]
              exact Or.inr ⟨req, s1, rfl, hfs, rfl⟩
            · rw [if_neg h2]
              by_cases h3 : oracle 3 = true
              · rw [if_pos h3]
                exact Or.inr ⟨req, s1, rfl, hfs, rfl⟩
              · rw [if_neg h3]
                exact Or.inr ⟨req, s1, rfl, hfs, rfl⟩

/-- C2 amended: `createShift` always establishes the invariant on the shift
it creates (pre-assigned ⇒ `approved`, otherwise `open` and unassigned),
and `approveRequest` always establishes it on the shift it commits
(assigned and `approved` together); `rejectRequest` re-establishes it
provided the shift it reopens is unassigned (as in the normal workflow).
Direct edits are excluded: `updateShift` sets `status` and `assignedTo`
independently and can break the invariant (see the counterexample). -/
theorem lifecycle_ops_preserve_invariant :
    (∀ (st : SysState) (actorId : Nat) (body : CreateShiftBody),
      ∀ s ∈ (createShift st actorId body).2.shifts, s ∈ st.shifts ∨ shiftInvariant s) ∧
    (∀ (st : SysState) (oracle : Nat → Bool) (managerId requestId : Nat),
      ∀ s ∈ (approveRequest st oracle managerId requestId).2.shifts,
        s ∈ st.shifts ∨ shiftInvariant s) ∧
    (∀ (st : SysState) (oracle : Nat → Bool) (managerId requestId : Nat)
        (req : SwapRequest) (s0 : Shift),
      findRequest st.requests requestId = some req →
      findShift st.shifts req.shift = some s0 →
      s0.assignedTo = none →
      ∀ s ∈ (rejectRequest st oracle managerId requestId).2.shifts,
        s ∈ st.shifts ∨ shiftInvariant s) := by
  refine ⟨?_, ?_, ?_⟩
  · intro st actorId body s hmem
    rcases createShift_shifts_cases st actorId body with h | ⟨ns, h, hstat, hassign⟩
    · rw [h] at hmem
      exact Or.inl hmem
    · rw [h] at hmem
      rcases List.mem_append.mp hmem with h2 | h2
      · exact Or.inl h2
      · rcases List.mem_singleton.mp h2 with rfl
        rcases hba : body.assignedTo with _ | w
        · rw [hba] at hstat hassign
          simp only [Option.isSome_none, Bool.false_eq_true, if_false] at hstat
          exact Or.inr ⟨fun hne => absurd hassign hne, fun _ => hassign⟩
        · rw [hba] at hstat hassign
          simp only [Option.isSome_some, if_true] at hstat
          refine Or.inr ⟨fun _ => hstat, fun hopen => ?_⟩
          rw [hstat] at hopen
          cases hopen
  · intro st oracle managerId requestId s hmem
    rcases approveRequest_shifts_cases st oracle managerId requestId with h | ⟨req, s1, _, h⟩
    · rw [h] at hmem
      exact Or.inl hmem
    · rw [h] at hmem
      rcases mem_saveShift _ _ s hmem with h2 | rfl
      · exact Or.inl h2
      · exact Or.inr (by simp [shiftInvariant])
  · intro st oracle managerId requestId req s0 hfr hfs hun s hmem
    rcases rejectRequest_shifts_cases st oracle managerId requestId with h | ⟨req2, s1, hfr2, hfs2, h⟩
    · rw [h] at hmem
      exact Or.inl hmem
    · rw [h] at hmem
      rcases mem_saveShift _ _ s hmem with h2 | rfl
      · exact Or.inl h2
      · rw [hfr] at hfr2
        injection hfr2 with hreqeq
        subst hreqeq
        rw [hfs] at hfs2
        injection hfs2 with hseq
        subst hseq
        exact Or.inr ⟨fun hne => absurd hun hne, fun _ => hun⟩

/-! Concrete reject scenario for the C2 witness: a pending request on an
unassigned `requested` shift. -/

def c2rShift : Shift :=
  { id := 0, title := "Ward cover", department := "Nursing", date := 0
    startTime := "09:00", endTime := "17:00", postedBy := 3, status := .requested
    assignedTo := none, requiredCredentials := [], isEmergency := false
    incentiveAmount := 0 }

def c2rReq : SwapRequest :=
  { id := 0, shift := 0, requestedBy := 5, status := .pending, manager := none
    swapType := "coverage", reason := "cover", responseDeadline := 10 }

def c2rState : SysState :=
  { shifts := [c2rShift], requests := [c2rReq], workHours := [], history := []
    notifications := [], users := [], now := 0 }

/-- C2 witness: the rejection clause of the amended theorem instantiated at
the concrete scenario — the reopened shift satisfies the invariant. -/
theorem lifecycle_ops_preserve_invariant_witness :
    { c2rShift with status := ShiftStatus.open_ } ∈ c2rState.shifts ∨
      shiftInvariant { c2rShift with status := ShiftStatus.open_ } :=
  lifecycle_ops_preserve_invariant.2.2 c2rState noFail 9 0 c2rReq c2rShift rfl rfl rfl
    { c2rShift with status := ShiftStatus.open_ } (by decide)

/-! Concrete scenario for approval overlap: worker 5 already holds the
approved shift 10 over 09:00-17:00 on day 0, and has a pending request for
the overlapping shift 11 (10:00-12:00, same day, same department). -/

def c1ShiftA : Shift :=
  { id := 10, title := "Day A", department := "ER", date := 0
    startTime := "09:00", endTime := "17:00", postedBy := 3, status := .approved
    assignedTo := some 5, requiredCredentials := [], isEmergency := false
    incentiveAmount := 0 }

def c1ShiftB : Shift :=
  { id := 11, title := "Mid B", department := "ER", date := 0
    startTime := "10:00", endTime := "12:00", postedBy := 3, status := .requested
    assignedTo := none, requiredCredentials := [], isEmergency := false
    incentiveAmount := 0 }

def c1Req : SwapRequest :=
  { id := 0, shift := 11, requestedBy := 5, status := .pending, manager := none
    swapType := "coverage", reason := "cover", responseDeadline := 10 }

def c1State : SysState :=
  { shifts := [c1ShiftA, c1ShiftB], requests := [c1Req], workHours := []
    history := [], notifications := [], users := [], now := 0 }

/-- C1 counterexample: the overlap validator reports a hard worker-overlap
for the assignment approval is about to commit, yet `approveRequest`
succeeds and double-books worker 5 onto the overlapping shift — approval
never re-runs the validator. -/
theorem approveRequest_ignores_overlap_cex :
    (validateShiftOverlap c1State.shifts (some 5) "ER" 0 "10:00" "12:00" (some 11)).isValid
        = false ∧
    (approveRequest c1State noFail 9 0).1 = ApiResult.ok ∧
    findShift (approveRequest c1State noFail 9 0).2.shifts 11 =
      some { c1ShiftB with assignedTo := some 5, status := .approved } := by decide

/-- Saving a shift whose id is already present makes it the find-result for
that id. -/
theorem findShift_saveShift (l : List Shift) (s1 : Shift)
    (h : (findShift l s1.id).isSome = true) :
    findShift (saveShift l s1) s1.id = some s1 := by
  induction l with
  | nil => simp [findShift] at h
  | cons x xs ih =>
    by_cases hx : x.id = s1.id
    · have hsave : saveShift (x :: xs) s1 = s1 :: saveShift xs s1 := by
        simp [saveShift, hx]
      rw [hsave]
      simp [findShift]
    · have hsave : saveShift (x :: xs) s1 = x :: saveShift xs s1 := by
        simp [saveShift, hx]
      rw [hsave]
      unfold findShift at h ⊢
      rw [List.find?_cons_of_neg _ (by simp [hx])] at h ⊢
      exact ih h

/-- C1 amended: approval performs NO overlap re-validation: for every
pending request whose shift exists, `approveRequest` succeeds and commits
the shift to the requesting worker in status `approved` — whether or not
the Overlap Validator would report a hard worker-overlap for the committing
assignment (the only re-check run at approval time is the advisory overtime
computation). -/
theorem approveRequest_no_overlap_recheck (st : SysState) (managerId requestId : Nat)
    (req : SwapRequest) (s : Shift)
    (hreq : findRequest st.requests requestId = some req)
    (hpending : req.status = RequestStatus.pending)
    (hshift : findShift st.shifts req.shift = some s) :
    (approveRequest st noFail managerId requestId).1 = ApiResult.ok ∧
    findShift (approveRequest st noFail managerId requestId).2.shifts s.id =
      some { s with assignedTo := some req.requestedBy, status := ShiftStatus.approved } := by
  have hid : s.id = req.shift := by
    have := List.find?_some hshift
    simpa using this
  have h2 : findShift (saveShift st.shifts
      { s with assignedTo := some req.requestedBy, status := ShiftStatus.approved })
      s.id = some { s with assignedTo := some req.requestedBy, status := ShiftStatus.approved } := by
    apply findShift_saveShift
    show (findShift st.shifts s.id).isSome = true
    rw [hid, hshift]
    rfl
  unfold approveRequest
  simp only [hreq, hpending, hshift, noFail]
  exact ⟨rfl, h2⟩

/-- C1 witness: the amended theorem instantiated at the overlapping
scenario — approval still succeeds there. -/
theorem approveRequest_no_overlap_recheck_witness :
    (approveRequest c1State noFail 9 0).1 = ApiResult.ok :=
  (approveRequest_no_overlap_recheck c1State 9 0 c1Req c1ShiftB (by decide) (by decide)
    (by decide)).1

/-- A failure oracle that makes exactly the `k`-th database write throw. -/
def failAt (k : Nat) : Nat → Bool := fun i => i == k

/-! Concrete scenario for atomicity: a pending request on shift 20, plus an
open shift 21 available for filing. -/

def c3Shift : Shift :=
  { id := 20, title := "Clinic", department := "ER", date := 0
    startTime := "09:00", endTime := "17:00", postedBy := 3, status := .requested
    assignedTo := none, requiredCredentials := [], isEmergency := false
    incentiveAmount := 0 }

def c3OpenShift : Shift :=
  { id := 21, title := "Clinic late", department := "ER", date := 1
    startTime := "09:00", endTime := "17:00", postedBy := 3, status := .open_
    assignedTo := none, requiredCredentials := [], isEmergency := false
    incentiveAmount := 0 }

def c3Req : SwapRequest :=
  { id := 0, shift := 20, requestedBy := 5, status := .pending, manager := none
    swapType := "coverage", reason := "cover", responseDeadline := 10 }

def c3State : SysState :=
  { shifts := [c3Shift, c3OpenShift], requests := [c3Req], workHours := []
    history := [], notifications := [], users := [], now := 0 }

def c3Body : SwapRequestBody :=
  { shiftId := 21, swapType := "coverage", reason := "new", responseDeadline := 30 }

/-- C3 counterexample: when the hours-ledger write (write 2) fails during
approval, the caller gets the storage error but observes the request
already marked `approved` with NO ledger entry — the partial commit is not
rolled back. -/
theorem approval_not_atomic_cex :
    (approveRequest c3State (failAt 2) 9 0).1 = ApiResult.err 500 "Internal server error" ∧
    findRequest (approveRequest c3State (failAt 2) 9 0).2.requests 0 =
      some { c3Req with status := .approved, manager := some 9 } ∧
    (approveRequest c3State (failAt 2) 9 0).2.workHours = [] := by decide

/-- Saving a request whose id is already present makes it the find-result
for that id. -/
theorem findRequest_saveRequest (l : List SwapRequest) (r1 : SwapRequest)
    (h : (findRequest l r1.id).isSome = true) :
    findRequest (saveRequest l r1) r1.id = some r1 := by
  induction l with
  | nil => simp [findRequest] at h
  | cons x xs ih =>
    by_cases hx : x.id = r1.id
    · have hsave : saveRequest (x :: xs) r1 = r1 :: saveRequest xs r1 := by
        simp [saveRequest, hx]
      rw [hsave]
      simp [findRequest]
    · have hsave : saveRequest (x :: xs) r1 = x :: saveRequest xs r1 := by
        simp [saveRequest, hx]
      rw [hsave]
      unfold findRequest at h ⊢
      rw [List.find?_cons_of_neg _ (by simp [hx])] at h ⊢
      exact ih h

/-- C3 amended: the commit sequences are NOT atomic — each write persists
independently and nothing rolls back.  If the hours-ledger write fails
during approval, the request stays `approved` with the manager recorded and
no ledger entry is written; if the shift-status write fails during filing,
the new `pending` request stays created while the shift remains `open`. -/
theorem commit_sequences_not_atomic
    (st : SysState) (managerId requestId userId : Nat) (body : SwapRequestBody)
    (req : SwapRequest) (s sB : Shift)
    (hreq : findRequest st.requests requestId = some req)
    (hpending : req.status = RequestStatus.pending)
    (hshift : findShift st.shifts req.shift = some s)
    (hfindB : findShift st.shifts body.shiftId = some sB)
    (hopenB : sB.status = ShiftStatus.open_)
    (hselfB : sB.postedBy ≠ userId)
    (hcredB : (verifyUserCredentials st.users userId sB.requiredCredentials st.now).isValid = true)
    (hdupB : st.requests.find? (fun r => r.shift == body.shiftId && r.requestedBy == userId)
      = none) :
    ((approveRequest st (failAt 2) managerId requestId).1 =
        ApiResult.err 500 "Internal server error" ∧
      findRequest (approveRequest st (failAt 2) managerId requestId).2.requests req.id =
        some { req with status := RequestStatus.approved, manager := some managerId } ∧
      (approveRequest st (failAt 2) managerId requestId).2.workHours = st.workHours) ∧
    ((createSwapRequest st (failAt 1) userId body).1 =
        ApiResult.err 500 "Internal server error" ∧
      (createSwapRequest st (failAt 1) userId body).2.requests =
        st.requests ++ [{ id := st.requests.length, shift := body.shiftId
                          requestedBy := userId, status := RequestStatus.pending
                          manager := none, swapType := body.swapType, reason := body.reason
                          responseDeadline := body.responseDeadline }] ∧
      findShift (createSwapRequest st (failAt 1) userId body).2.shifts body.shiftId =
        some sB ∧
      sB.status = ShiftStatus.open_) := by
  refine ⟨?_, ?_⟩
  · have hidr : req.id = requestId := by
      have := List.find?_some hreq
      simpa using this
    have hh : (findRequest st.requests req.id).isSome = true := by
      rw [hidr, hreq]
      rfl
    have hr2 := findRequest_saveRequest st.requests
      { req with status := RequestStatus.approved, manager := some managerId } hh
    unfold approveRequest
    simp only [hreq, hpending, hshift, failAt]
    exact ⟨rfl, hr2, rfl⟩
  · unfold createSwapRequest
    simp only [hfindB, hopenB, hselfB, hcredB, hdupB, failAt]
    exact ⟨rfl, rfl, hfindB, trivial⟩

/-- C3 witness: the amended theorem instantiated at the concrete scenario;
the injected ledger-write failure and shift-write failure surface as the
storage error on both operations. -/
theorem commit_sequences_not_atomic_witness :
    (approveRequest c3State (failAt 2) 9 0).1 = ApiResult.err 500 "Internal server error" ∧
    (createSwapRequest c3State (failAt 1) 5 c3Body).1 =
      ApiResult.err 500 "Internal server error" :=
  ⟨(commit_sequences_not_atomic c3State 9 0 5 c3Body c3Req c3Shift c3OpenShift
      (by decide) (by decide) (by decide) (by decide) (by decide) (by decide) (by decide)
      (by decide)).1.1,
   (commit_sequences_not_atomic c3State 9 0 5 c3Body c3Req c3Shift c3OpenShift
      (by decide) (by decide) (by decide) (by decide) (by decide) (by decide) (by decide)
      (by decide)).2.1⟩

end ShiftSwap
